import Mathlib

/-!
# Motor test tool — verification of the PWM engine and phase sequencer

Shallow embedding of `src/main.cpp` (Arduino sketch driving a motor-driven
pump and a solenoid valve).  The embedding covers:

* the software PWM primitive `myPWM` (lines 262-274): its integer period /
  on-time / off-time / cycle-count arithmetic and the high/low waveform it
  emits on the output pin;
* the button-gesture classifier of the step loop (lines 156-169): a press
  counter incremented once per 100 ms poll, long-press iff `counter > 10`;
* the phase-sequencer state machine of the step loop (lines 152-194):
  `pump_mode`, the two profile-table pointers `Build_up` / `PWM`, the step
  cursor `i`, the per-step jitter sweep, and the solenoid line writes;
* the binary64 floating-point expression
  `int((Build_up[i]-35)*(1+j/1000.0))` of line 186, embedded exactly:
  doubles are modelled as mantissa-exponent pairs of integers and every
  operation rounds to 53 significant bits, to nearest, ties to even
  (all values reached by the program are normal, so neither overflow nor
  subnormals arise and this is exactly IEEE-754 binary64 arithmetic,
  which is what the compiled C++ performs on these expressions).

C++ `int` arithmetic never overflows 32 bits on the values this program
computes, so `int` values are embedded as `ℤ` (or `ℕ` where the relevant
claim's precondition makes them non-negative).  The two places where the
source routes integers through `double` and back with a plain truncating
cast and the cast provably agrees with integer division for every `int`
input (`1E3/frequencyKhz` and `durationMs*1E3/periodUs`: both quotients
stay far below `2^53`, so the rounded double quotient truncates to the
exact integer quotient) are embedded directly as natural-number division.
The one expression where double rounding is observable, the jitter factor
of line 186, gets the exact bit-level model.
-/

/- ## PWM engine (`myPWM`, lines 262-274)

```cpp
int myPWM(int durationMs, int PWM, int frequencyKhz, int pin) {
  int periodUs = 1E3/frequencyKhz;
  int onTime = periodUs * PWM / 255;
  int offTime = periodUs - onTime;
  int cycles = durationMs*1E3 / periodUs;
  for (int i = 0; i < cycles; i++) {
    digitalWrite(pin, HIGH);
    nrf_delay_us(onTime);
    digitalWrite(pin, LOW);
    nrf_delay_us(offTime);
  }
  return 1;
}
```
-/

/-- `int periodUs = 1E3/frequencyKhz` — the double quotient `1000.0/f`
truncated by the `int` conversion, which for every positive `int` input
equals the integer quotient. -/
def myPWM_periodUs (frequencyKhz : ℕ) : ℕ :=
  1000 / frequencyKhz

/-- `int onTime = periodUs * PWM / 255` (the parameter named `PWM` in the
source is called `dutyByte` here to avoid clashing with the global table
pointer of the same name). -/
def myPWM_onTime (dutyByte frequencyKhz : ℕ) : ℕ :=
  myPWM_periodUs frequencyKhz * dutyByte / 255

/-- `int offTime = periodUs - onTime`. -/
def myPWM_offTime (dutyByte frequencyKhz : ℕ) : ℕ :=
  myPWM_periodUs frequencyKhz - myPWM_onTime dutyByte frequencyKhz

/-- `int cycles = durationMs*1E3 / periodUs` — again a truncated double
quotient that coincides with the integer quotient on all `int` inputs. -/
def myPWM_cycles (durationMs frequencyKhz : ℕ) : ℕ :=
  durationMs * 1000 / myPWM_periodUs frequencyKhz

/-- The waveform the `for` loop of `myPWM` drives on `pin`: per cycle, the
line is written HIGH and held `onTime` microseconds, then written LOW and
held `offTime` microseconds.  A segment is a written level paired with the
busy-wait duration that follows the write. -/
def myPWMTrace (durationMs dutyByte frequencyKhz : ℕ) : List (Bool × ℕ) :=
  (List.replicate (myPWM_cycles durationMs frequencyKhz)
    [(true, myPWM_onTime dutyByte frequencyKhz),
     (false, myPWM_offTime dutyByte frequencyKhz)]).flatten

/-- Total microseconds a trace occupies. -/
def traceTotal (tr : List (Bool × ℕ)) : ℕ :=
  (tr.map Prod.snd).sum

/-- Microseconds the line spends HIGH over a trace. -/
def highTime (tr : List (Bool × ℕ)) : ℕ :=
  ((tr.filter fun s => s.1 = true).map Prod.snd).sum

/-- Microseconds the line spends LOW over a trace. -/
def lowTime (tr : List (Bool × ℕ)) : ℕ :=
  ((tr.filter fun s => s.1 = false).map Prod.snd).sum

/-- The observable part of a trace: segments that occupy time.  A write
immediately followed by a zero-microsecond wait and the opposite write
never persists on the line. -/
def observable (tr : List (Bool × ℕ)) : List (Bool × ℕ) :=
  tr.filter fun s => s.2 ≠ 0

/-- Number of observable HIGH segments. -/
def highSegs (tr : List (Bool × ℕ)) : ℕ :=
  (observable tr).countP fun s => s.1 = true

/-- Number of observable LOW segments. -/
def lowSegs (tr : List (Bool × ℕ)) : ℕ :=
  (observable tr).countP fun s => s.1 = false

/- ## Button gesture classifier (step loop, lines 156-169)

```cpp
counter=0;
while(digitalRead(BUTTON) == HIGH) {
  delay(100);
  counter+=1;
  if (counter > 10) {
    ... // long-press handling: toggle pump_mode, i=0, break
  }
}
```
A press that keeps the button HIGH for `n` polls of 100 ms runs the loop
body up to `n` times; the body increments the counter and exits early via
`break` as soon as `counter > 10`. -/

/-- Gesture classified from a button press. -/
inductive Gesture
  | short
  | long
deriving DecidableEq

/-- The counting loop: `polls` more iterations would find the button still
pressed; `counter` is the current counter value.  Each iteration increments
the counter and tests `counter > 10` (the long-press `break`); if the
button is released first the loop falls through to short-press handling. -/
def pressLoop : ℕ → ℕ → Gesture
  | 0, _ => Gesture.short
  | polls + 1, counter =>
      if counter + 1 > 10 then Gesture.long else pressLoop polls (counter + 1)

/-- Classification of a press held for `polls` polls, starting from
`counter = 0` as the source does. -/
def classifyPress (polls : ℕ) : Gesture :=
  pressLoop polls 0

/- ## Profile tables and sequencer state (lines 51, 63-80, 152-194)

```cpp
int pump_mode = 1; // 0 is swing, 1 is solo
int Build_up_swing[18] = {...};
int PWM_swing[18] = {...};
int Build_up_solo[18] = {...};
int PWM_solo[18] = {...};
int *Build_up = Build_up_swing;
int *PWM = PWM_swing;
```
-/

/-- `Build_up_swing` (line 64). -/
def Build_up_swing : List ℤ :=
  [200, 225, 242, 255, 265, 276, 300, 325, 350, 235, 305, 385, 490, 535, 600, 680, 760, 845]

/-- `PWM_swing` (line 65). -/
def PWM_swing : List ℤ :=
  [40, 46, 50, 56, 62, 68, 72, 78, 84, 36, 40, 46, 48, 54, 58, 62, 66, 70]

/-- `Build_up_solo` (line 68). -/
def Build_up_solo : List ℤ :=
  [250, 245, 254, 285, 290, 280, 320, 340, 360, 260, 392, 522, 682, 630, 725, 555, 710, 870]

/-- `PWM_solo` (line 69). -/
def PWM_solo : List ℤ :=
  [26, 30, 32, 34, 38, 40, 42, 44, 46, 26, 28, 30, 32, 36, 38, 40, 42, 46]

/-- The mutable state the step loop of lines 152-194 reads and writes:
`pump_mode`, the two table pointers (modelled by the table values they
alias), and the loop index `i` at the head of a `for` iteration. -/
structure SeqState where
  pump_mode : ℤ
  Build_up : List ℤ
  PWM : List ℤ
  cursor : ℕ
deriving DecidableEq

/-- Program-start state: `pump_mode = 1` (line 51), both pointers
statically aliased to the swing tables (lines 79-80), first `for`
iteration at `i = 0`. -/
def initState : SeqState :=
  { pump_mode := 1, Build_up := Build_up_swing, PWM := PWM_swing, cursor := 0 }

/-- What one executed step of the sequencer reads: the index it runs at,
`pump_mode` at that moment, and the two tables the pointers alias while
the step's bursts are emitted. -/
structure StepExec where
  index : ℕ
  mode : ℤ
  buildTbl : List ℤ
  dutyTbl : List ℤ
deriving DecidableEq

/-- Lines 161-165: `if (pump_mode == 0) pump_mode = 1; else pump_mode = 0;`. -/
def toggleMode (m : ℤ) : ℤ :=
  if m = 0 then 1 else 0

/-- Effect of the press-counting loop on the sequencer state: a short
press falls through unchanged; a long press (counter reaches 11) toggles
`pump_mode` and sets `i = 0` before `break` (lines 160-168). -/
def applyGesture (s : SeqState) : Gesture → SeqState
  | Gesture.short => s
  | Gesture.long => { s with pump_mode := toggleMode s.pump_mode, cursor := 0 }

/-- Lines 171-177: both pointers are reassigned from the current
`pump_mode` before the step body runs. -/
def bindTables (s : SeqState) : SeqState :=
  if s.pump_mode = 0 then { s with Build_up := Build_up_swing, PWM := PWM_swing }
  else { s with Build_up := Build_up_solo, PWM := PWM_solo }

/-- One full `for`-iteration of lines 152-194: wait for a press, classify
it (`applyGesture`), rebind the table pointers (`bindTables`), execute the
step at the current index, then `i += 1`; when the incremented index
leaves `0..17` the `for` exits and the enclosing `while(1)` restarts it at
`i = 0`. -/
def runIteration (s : SeqState) (g : Gesture) : SeqState × StepExec :=
  let s1 := applyGesture s g
  let s2 := bindTables s1
  let e : StepExec :=
    { index := s2.cursor, mode := s2.pump_mode,
      buildTbl := s2.Build_up, dutyTbl := s2.PWM }
  ({ s2 with cursor := if s2.cursor + 1 > 17 then 0 else s2.cursor + 1 }, e)

/-- Run the sequencer over a list of classified gestures, collecting the
executed steps in order. -/
def runGestures (s : SeqState) : List Gesture → SeqState × List StepExec
  | [] => (s, [])
  | g :: gs =>
      let p := runIteration s g
      let q := runGestures p.1 gs
      (q.1, p.2 :: q.2)

/-- Both table pointers alias tables of one and the same profile. -/
def tablesConsistent (bt dt : List ℤ) : Prop :=
  (bt = Build_up_swing ∧ dt = PWM_swing) ∨ (bt = Build_up_solo ∧ dt = PWM_solo)

instance (bt dt : List ℤ) : Decidable (tablesConsistent bt dt) := by
  unfold tablesConsistent
  exact inferInstance

/- ## Exact binary64 model for the jitter expression (line 186)

```cpp
for (int j = -120; j <= 120; j=j+40) {
  myPWM(35, (1.5/4*255), 20, MOTOR_PWM);
  myPWM(int((Build_up[i]-35)*(1+j/1000.0)), PWM[i]*255/100, 20, MOTOR_PWM);
  ...
}
```
`j/1000.0`, `1 + _` and `(Build_up[i]-35) * _` are IEEE-754 binary64
operations (correctly rounded, round to nearest, ties to even); the outer
`int(...)` truncates toward zero.  A double is represented below by a
mantissa-exponent pair `(m, e) : ℤ × ℤ` denoting `m * 2 ^ e`; every
operation first forms the exact rational result and then rounds its
magnitude to a 53-bit mantissa.  All values reached here are normal and
far from overflow, so this agrees bit-for-bit with the hardware. -/

/-- Number of binary digits of `n`, computed with structural fuel so that
the kernel can evaluate it (`fuel = 512` covers every integer produced by
the expressions below by a wide margin). -/
def bitLenAux : ℕ → ℕ → ℕ
  | 0, _ => 0
  | fuel + 1, n => if n = 0 then 0 else bitLenAux fuel (n / 2) + 1

/-- Bit length of a natural number. -/
def bitLen (n : ℕ) : ℕ :=
  bitLenAux 512 n

/-- Round the rational `num / den` (both positive) to the nearest integer,
ties to even. -/
def roundQuot (num den : ℕ) : ℕ :=
  let q := num / den
  let r := num % den
  if 2 * r < den then q
  else if den < 2 * r then q + 1
  else if q % 2 = 0 then q else q + 1

/-- Shift the fraction `a / d` by `2 ^ e`: returns a numerator-denominator
pair for `a / (d * 2 ^ e)` with the power of two folded into whichever side
keeps both entries natural. -/
def shiftPair (a d : ℕ) (e : ℤ) : ℕ × ℕ :=
  if 0 ≤ e then (a, d * 2 ^ e.toNat) else (a * 2 ^ (-e).toNat, d)

/-- Round the positive rational `a / d` to 53 significant bits, to
nearest, ties to even: the result `(m, e)` satisfies
`m * 2 ^ e = fl(a / d)` with `2 ^ 52 ≤ m ≤ 2 ^ 53`. -/
def rndPos (a d : ℕ) : ℕ × ℤ :=
  let e1 : ℤ := (bitLen a : ℤ) - (bitLen d : ℤ) - 53
  let p1 := shiftPair a d e1
  let e : ℤ := if 2 ^ 53 ≤ p1.1 / p1.2 then e1 + 1 else e1
  let p := shiftPair a d e
  (roundQuot p.1 p.2, e)

/-- Round the rational `n / d` (`d > 0`) to binary64: sign handled by
symmetry, as IEEE round-to-nearest is odd. -/
def rnd (n : ℤ) (d : ℕ) : ℤ × ℤ :=
  if n = 0 then (0, 0)
  else if 0 < n then
    let p := rndPos n.toNat d
    ((p.1 : ℤ), p.2)
  else
    let p := rndPos (-n).toNat d
    (-(p.1 : ℤ), p.2)

/-- Round the exact dyadic value `m * 2 ^ e` to binary64. -/
def rndDyadic (m e : ℤ) : ℤ × ℤ :=
  if 0 ≤ e then rnd (m * 2 ^ e.toNat) 1 else rnd m (2 ^ (-e).toNat)

/-- `int`-to-`double` conversion (exact for every 32-bit `int`, and the
rounding is the identity there). -/
def dOfInt (n : ℤ) : ℤ × ℤ :=
  rnd n 1

/-- binary64 addition. -/
def dAdd (x y : ℤ × ℤ) : ℤ × ℤ :=
  let e := min x.2 y.2
  rndDyadic (x.1 * 2 ^ (x.2 - e).toNat + y.1 * 2 ^ (y.2 - e).toNat) e

/-- binary64 multiplication. -/
def dMul (x y : ℤ × ℤ) : ℤ × ℤ :=
  rndDyadic (x.1 * y.1) (x.2 + y.2)

/-- binary64 division. -/
def dDiv (x y : ℤ × ℤ) : ℤ × ℤ :=
  let n : ℤ := if 0 ≤ y.1 then x.1 else -x.1
  let a : ℕ := y.1.natAbs
  let e : ℤ := x.2 - y.2
  if 0 ≤ e then rnd (n * 2 ^ e.toNat) a else rnd n (a * 2 ^ (-e).toNat)

/-- C++ `int(...)` conversion of a double: truncation toward zero. -/
def truncToInt (x : ℤ × ℤ) : ℤ :=
  if 0 ≤ x.2 then x.1 * 2 ^ x.2.toNat
  else if 0 ≤ x.1 then (x.1.toNat / 2 ^ (-x.2).toNat : ℕ)
  else -((-x.1).toNat / 2 ^ (-x.2).toNat : ℕ)

/-- The double `1 + j/1000.0` of line 186 (`j` is an `int`, converted
exactly; `1000.0` and `1` are exact doubles). -/
def jitterFactor (j : ℤ) : ℤ × ℤ :=
  dAdd (dOfInt 1) (dDiv (dOfInt j) (dOfInt 1000))

/-- The first `myPWM` argument of line 186:
`int((Build_up[i]-35)*(1+j/1000.0))`. -/
def mainBurstDuration (bu j : ℤ) : ℤ :=
  truncToInt (dMul (dOfInt (bu - 35)) (jitterFactor j))

/-- The jitter sweep values of line 184: `for (int j = -120; j <= 120; j=j+40)`. -/
def jitterValues : List ℤ :=
  [-120, -80, -40, 0, 40, 80, 120]


/- ## Output-event traces of the two actuation branches

The debug branch (lines 120-148) and the sequencer's per-step body
(lines 179-193) interleave solenoid-line writes, blocking delays and
`myPWM` bursts.  Each branch is embedded as the list of output events it
emits, in program order. -/

/-- Pins that `myPWM` is invoked on. -/
inductive Pin
  | MOTOR_PWM
  | SOL_ON_PWM
deriving DecidableEq

/-- One output action: a write to a solenoid line, a blocking `delay`, or
a blocking `myPWM` burst (duration ms, duty byte, frequency kHz). -/
inductive Ev
  | writeSolOnEn : Bool → Ev
  | writeSolOnPwm : Bool → Ev
  | delayMs : ℕ → Ev
  | pwmBurst : Pin → ℤ → ℤ → ℤ → Ev
deriving DecidableEq

/-- One iteration of the debug branch's `for (int i = 0; i <= 10; i++)`
body (lines 123-145).  `(1.5/4*255)` is the exact double `95.625`, so the
`int` parameter receives `95`; `Build_up_debug = 845`, `PWM_debug = 70`. -/
def debugIterTrace : List Ev :=
  [Ev.delayMs 100,
   Ev.writeSolOnEn false, Ev.writeSolOnPwm false,
   Ev.pwmBurst Pin.MOTOR_PWM 35 95 20,
   Ev.pwmBurst Pin.MOTOR_PWM (845 - 35) (70 * 255 / 100) 20,
   Ev.delayMs 50,
   Ev.writeSolOnEn true,
   Ev.pwmBurst Pin.SOL_ON_PWM 400 (60 * 255 / 100) 20,
   Ev.writeSolOnEn false, Ev.writeSolOnPwm false]

/-- The debug branch, lines 120-148: `SOL_ON_EN` is raised once up front
(line 122), the body runs for `i = 0..10`, then both lines are cleared
(lines 147-148). -/
def debugTrace : List Ev :=
  Ev.writeSolOnEn true :: (List.replicate 11 debugIterTrace).flatten
    ++ [Ev.writeSolOnEn false, Ev.writeSolOnPwm false]

/-- One jitter iteration of the sequencer's sweep (lines 184-193), for a
step whose table entries are `bu` and `duty`: warm-up burst, main burst
(duration `int((Build_up[i]-35)*(1+j/1000.0))`), 50 ms settle, both
solenoid lines high, 300 ms dwell, both low. -/
def sweepIterTrace (bu duty j : ℤ) : List Ev :=
  [Ev.pwmBurst Pin.MOTOR_PWM 35 95 20,
   Ev.pwmBurst Pin.MOTOR_PWM (mainBurstDuration bu j) (duty * 255 / 100) 20,
   Ev.delayMs 50,
   Ev.writeSolOnEn true, Ev.writeSolOnPwm true,
   Ev.delayMs 300,
   Ev.writeSolOnEn false, Ev.writeSolOnPwm false]

/-- The sequencer's full step body (lines 179-193): 500 ms pause, both
solenoid lines cleared, then the jitter sweep. -/
def stepTrace (bu duty : ℤ) : List Ev :=
  Ev.delayMs 500 :: Ev.writeSolOnEn false :: Ev.writeSolOnPwm false ::
    (jitterValues.map (sweepIterTrace bu duty)).flatten

/-- Scan of a trace checking that the two solenoid lines are only ever
driven as an adjacent pair at the same level: a write to one of them must
be immediately followed by the write of the other at the same level
(either order), with no delay, burst, or further solo write in between,
and no `myPWM` burst may target a solenoid line (its rapid writes are not
mirrored on the enable line).  The accumulator holds a pending unmatched
write: `some (onEnLine, level)`. -/
def solPairedAux : Option (Bool × Bool) → List Ev → Bool
  | none, [] => true
  | some _, [] => false
  | none, Ev.writeSolOnEn b :: rest => solPairedAux (some (true, b)) rest
  | none, Ev.writeSolOnPwm b :: rest => solPairedAux (some (false, b)) rest
  | none, Ev.delayMs _ :: rest => solPairedAux none rest
  | none, Ev.pwmBurst Pin.MOTOR_PWM _ _ _ :: rest => solPairedAux none rest
  | none, Ev.pwmBurst Pin.SOL_ON_PWM _ _ _ :: _ => false
  | some p, Ev.writeSolOnEn c :: rest =>
      !p.1 && (p.2 == c) && solPairedAux none rest
  | some p, Ev.writeSolOnPwm c :: rest =>
      p.1 && (p.2 == c) && solPairedAux none rest
  | some _, Ev.delayMs _ :: _ => false
  | some _, Ev.pwmBurst _ _ _ _ :: _ => false

/-- A trace drives the solenoid enable and drive lines only as pairs. -/
def solPaired (tr : List Ev) : Bool :=
  solPairedAux none tr

/- ## Spec-side formulas (for refinement comparison only)

These two definitions follow the specification's words, not the source;
they exist to be compared against the source-derived definitions above. -/

/-- Modelled from the spec's words: `adjustedBuildUp =
round((buildUp[i]-35) * (1 + jitterOffset/1000.0))` read as exact real
arithmetic followed by rounding to the nearest integer. -/
def specAdjustedBuildUp (bu j : ℤ) : ℤ :=
  round (((bu : ℚ) - 35) * (1 + (j : ℚ) / 1000))

/-- The `frequencyKhz` argument of every `myPWM` call in the program, in
source order: lines 131, 132, 136 (debug branch), 185, 186 (jitter
sweep), 212 (PWM test-bench mode). -/
def pwmCallSiteFrequencies : List ℤ :=
  [20, 20, 20, 20, 20, 20]

/- ## Helper lemmas -/

theorem countP_flatten_replicate {α : Type} (p : α → Bool) (n : ℕ) (l : List α) :
    ((List.replicate n l).flatten.countP p) = n * l.countP p := by
  induction n with
  | zero => simp
  | succ k ih =>
      rw [List.replicate_succ, List.flatten_cons, List.countP_append, ih, Nat.succ_mul]
      omega

theorem traceTotal_append (t1 t2 : List (Bool × ℕ)) :
    traceTotal (t1 ++ t2) = traceTotal t1 + traceTotal t2 := by
  simp [traceTotal]

theorem traceTotal_flatten_replicate (n : ℕ) (l : List (Bool × ℕ)) :
    traceTotal ((List.replicate n l).flatten) = n * traceTotal l := by
  induction n with
  | zero => simp [traceTotal]
  | succ k ih =>
      rw [List.replicate_succ, List.flatten_cons, traceTotal_append, ih, Nat.succ_mul]
      omega

theorem highTime_append (t1 t2 : List (Bool × ℕ)) :
    highTime (t1 ++ t2) = highTime t1 + highTime t2 := by
  simp [highTime]

theorem highTime_flatten_replicate (n : ℕ) (l : List (Bool × ℕ)) :
    highTime ((List.replicate n l).flatten) = n * highTime l := by
  induction n with
  | zero => simp [highTime]
  | succ k ih =>
      rw [List.replicate_succ, List.flatten_cons, highTime_append, ih, Nat.succ_mul]
      omega

theorem lowTime_append (t1 t2 : List (Bool × ℕ)) :
    lowTime (t1 ++ t2) = lowTime t1 + lowTime t2 := by
  simp [lowTime]

theorem lowTime_flatten_replicate (n : ℕ) (l : List (Bool × ℕ)) :
    lowTime ((List.replicate n l).flatten) = n * lowTime l := by
  induction n with
  | zero => simp [lowTime]
  | succ k ih =>
      rw [List.replicate_succ, List.flatten_cons, lowTime_append, ih, Nat.succ_mul]
      omega

theorem highTime_add_lowTime (tr : List (Bool × ℕ)) :
    highTime tr + lowTime tr = traceTotal tr := by
  induction tr with
  | nil => simp [highTime, lowTime, traceTotal]
  | cons s rest ih =>
      rcases s with ⟨b, d⟩
      cases b <;> simp [highTime, lowTime, traceTotal] at ih ⊢ <;> omega

theorem myPWM_periodUs_pos (frequencyKhz : ℕ) (h1 : 0 < frequencyKhz)
    (h2 : frequencyKhz ≤ 1000) : 0 < myPWM_periodUs frequencyKhz := by
  unfold myPWM_periodUs
  exact (Nat.one_le_div_iff h1).mpr h2

theorem myPWM_onTime_le (dutyByte frequencyKhz : ℕ) (h : dutyByte ≤ 255) :
    myPWM_onTime dutyByte frequencyKhz ≤ myPWM_periodUs frequencyKhz := by
  unfold myPWM_onTime
  calc myPWM_periodUs frequencyKhz * dutyByte / 255
      ≤ myPWM_periodUs frequencyKhz * 255 / 255 :=
        Nat.div_le_div_right (Nat.mul_le_mul_left _ h)
    _ = myPWM_periodUs frequencyKhz := Nat.mul_div_cancel _ (by norm_num)

/- ## Claim theorems -/

/-- C2: for every `durationMs ≥ 0`, `dutyByte ∈ [0,255]` and
`frequencyKHz ∈ (0,1000]`, `myPWM` computes `periodUs = 1000/frequencyKHz`
truncated, `onTimeUs = periodUs*dutyByte/255` truncated,
`offTimeUs = periodUs - onTimeUs`, and performs exactly
`cycles = floor(durationMs*1000 / periodUs)` high/low transition pairs, so
the elapsed time `cycles*periodUs` under-runs the requested
`durationMs*1000` microseconds by strictly less than one period. -/
theorem myPWM_cycle_count_underrun (durationMs dutyByte frequencyKhz : ℕ)
    (hduty : dutyByte ≤ 255) (hfpos : 0 < frequencyKhz) (hfle : frequencyKhz ≤ 1000) :
    myPWM_periodUs frequencyKhz = 1000 / frequencyKhz ∧
    myPWM_onTime dutyByte frequencyKhz = myPWM_periodUs frequencyKhz * dutyByte / 255 ∧
    myPWM_offTime dutyByte frequencyKhz =
      myPWM_periodUs frequencyKhz - myPWM_onTime dutyByte frequencyKhz ∧
    (myPWMTrace durationMs dutyByte frequencyKhz).countP (fun s => s.1) =
      durationMs * 1000 / myPWM_periodUs frequencyKhz ∧
    (myPWMTrace durationMs dutyByte frequencyKhz).countP (fun s => !s.1) =
      durationMs * 1000 / myPWM_periodUs frequencyKhz ∧
    traceTotal (myPWMTrace durationMs dutyByte frequencyKhz) =
      myPWM_cycles durationMs frequencyKhz * myPWM_periodUs frequencyKhz ∧
    myPWM_cycles durationMs frequencyKhz * myPWM_periodUs frequencyKhz ≤ durationMs * 1000 ∧
    durationMs * 1000 - myPWM_cycles durationMs frequencyKhz * myPWM_periodUs frequencyKhz <
      myPWM_periodUs frequencyKhz := by
  have hp : 0 < myPWM_periodUs frequencyKhz := myPWM_periodUs_pos frequencyKhz hfpos hfle
  have hon : myPWM_onTime dutyByte frequencyKhz ≤ myPWM_periodUs frequencyKhz :=
    myPWM_onTime_le dutyByte frequencyKhz hduty
  refine ⟨rfl, rfl, rfl, ?_, ?_, ?_, ?_, ?_⟩
  · rw [myPWMTrace, countP_flatten_replicate]
    simp [myPWM_cycles]
  · rw [myPWMTrace, countP_flatten_replicate]
    simp [myPWM_cycles]
  · rw [myPWMTrace, traceTotal_flatten_replicate]
    have : traceTotal [(true, myPWM_onTime dutyByte frequencyKhz),
        (false, myPWM_offTime dutyByte frequencyKhz)] = myPWM_periodUs frequencyKhz := by
      simp [traceTotal, myPWM_offTime]
      omega
    rw [this]
  · exact Nat.div_mul_le_self _ _
  · have hdm : durationMs * 1000 / myPWM_periodUs frequencyKhz * myPWM_periodUs frequencyKhz
        + durationMs * 1000 % myPWM_periodUs frequencyKhz = durationMs * 1000 :=
      Nat.div_add_mod' _ _
    have hlt := Nat.mod_lt (durationMs * 1000) hp
    unfold myPWM_cycles
    omega

/-- Witness for C2 at the warm-up call of line 185: `myPWM(35, 95, 20, _)`. -/
theorem myPWM_cycle_count_underrun_witness :
    myPWM_periodUs 20 = 1000 / 20 ∧
    myPWM_onTime 95 20 = myPWM_periodUs 20 * 95 / 255 ∧
    myPWM_offTime 95 20 = myPWM_periodUs 20 - myPWM_onTime 95 20 ∧
    (myPWMTrace 35 95 20).countP (fun s => s.1) = 35 * 1000 / myPWM_periodUs 20 ∧
    (myPWMTrace 35 95 20).countP (fun s => !s.1) = 35 * 1000 / myPWM_periodUs 20 ∧
    traceTotal (myPWMTrace 35 95 20) = myPWM_cycles 35 20 * myPWM_periodUs 20 ∧
    myPWM_cycles 35 20 * myPWM_periodUs 20 ≤ 35 * 1000 ∧
    35 * 1000 - myPWM_cycles 35 20 * myPWM_periodUs 20 < myPWM_periodUs 20 :=
  myPWM_cycle_count_underrun 35 95 20 (by decide) (by decide) (by decide)

/-- C3: with `dutyByte = 0` the output line carries no observable HIGH
segment and spends zero time HIGH, the whole elapsed waveform being LOW
(each cycle writes HIGH for a zero-microsecond wait only); with
`dutyByte = 255` it carries no observable LOW segment and spends zero time
LOW, the whole elapsed waveform being HIGH. -/
theorem myPWM_extreme_duty (durationMs frequencyKhz : ℕ)
    (hfpos : 0 < frequencyKhz) (hfle : frequencyKhz ≤ 1000) :
    highSegs (myPWMTrace durationMs 0 frequencyKhz) = 0 ∧
    highTime (myPWMTrace durationMs 0 frequencyKhz) = 0 ∧
    lowTime (myPWMTrace durationMs 0 frequencyKhz) =
      traceTotal (myPWMTrace durationMs 0 frequencyKhz) ∧
    lowSegs (myPWMTrace durationMs 255 frequencyKhz) = 0 ∧
    lowTime (myPWMTrace durationMs 255 frequencyKhz) = 0 ∧
    highTime (myPWMTrace durationMs 255 frequencyKhz) =
      traceTotal (myPWMTrace durationMs 255 frequencyKhz) := by
  have hon0 : myPWM_onTime 0 frequencyKhz = 0 := by
    simp [myPWM_onTime]
  have hoff255 : myPWM_offTime 255 frequencyKhz = 0 := by
    simp [myPWM_offTime, myPWM_onTime, Nat.mul_div_cancel _ (show 0 < 255 by norm_num)]
  have h2 : highTime (myPWMTrace durationMs 0 frequencyKhz) = 0 := by
    rw [myPWMTrace, highTime_flatten_replicate, hon0]
    simp [highTime]
  have h5 : lowTime (myPWMTrace durationMs 255 frequencyKhz) = 0 := by
    rw [myPWMTrace, lowTime_flatten_replicate, hoff255]
    simp [lowTime]
  refine ⟨?_, h2, ?_, ?_, h5, ?_⟩
  · rw [myPWMTrace, highSegs, observable, List.countP_filter, countP_flatten_replicate, hon0]
    simp
  · have := highTime_add_lowTime (myPWMTrace durationMs 0 frequencyKhz)
    omega
  · rw [myPWMTrace, lowSegs, observable, List.countP_filter, countP_flatten_replicate, hoff255]
    simp
  · have := highTime_add_lowTime (myPWMTrace durationMs 255 frequencyKhz)
    omega

/-- Witness for C3 at `durationMs = 35`, `frequencyKHz = 20`. -/
theorem myPWM_extreme_duty_witness :
    highSegs (myPWMTrace 35 0 20) = 0 ∧
    highTime (myPWMTrace 35 0 20) = 0 ∧
    lowTime (myPWMTrace 35 0 20) = traceTotal (myPWMTrace 35 0 20) ∧
    lowSegs (myPWMTrace 35 255 20) = 0 ∧
    lowTime (myPWMTrace 35 255 20) = 0 ∧
    highTime (myPWMTrace 35 255 20) = traceTotal (myPWMTrace 35 255 20) :=
  myPWM_extreme_duty 35 20 (by decide) (by decide)

/-- C4: the counting loop of lines 156-169 classifies a press as
long-press exactly when it is held strictly longer than 10 polls of
100 ms; a press released at or before the 10th poll is a short-press (the
`counter > 10` comparison is strict, so the tie at exactly 10 polls goes
to short-press) and a press held 11 polls or more is a long-press. -/
theorem classifyPress_long_iff (polls : ℕ) :
    (classifyPress polls = Gesture.long ↔ 10 < polls) ∧
    classifyPress 10 = Gesture.short ∧
    classifyPress 11 = Gesture.long := by
  have key : ∀ (n c : ℕ), c ≤ 10 →
      (pressLoop n c = Gesture.long ↔ 10 < c + n) := by
    intro n
    induction n with
    | zero =>
        intro c hc
        simp [pressLoop]
        omega
    | succ m ih =>
        intro c hc
        by_cases h : c + 1 > 10
        · have hlong : pressLoop (m + 1) c = Gesture.long := by
            simp [pressLoop, h]
          simp [hlong]
          omega
        · have hstep : pressLoop (m + 1) c = pressLoop m (c + 1) := by
            simp [pressLoop, h]
          rw [hstep, ih (c + 1) (by omega)]
          omega
  refine ⟨?_, by decide, by decide⟩
  have := key polls 0 (by omega)
  simpa [classifyPress] using this

/-- C8: with `0 < frequencyKHz ≤ 1000` the truncated period is strictly
positive, so the cycle-count division of `myPWM` is well-defined; every
`myPWM` call site in the program passes `frequencyKHz = 20`, for which the
period is the positive value 50. -/
theorem pwm_division_safe (frequencyKhz : ℕ)
    (hfpos : 0 < frequencyKhz) (hfle : frequencyKhz ≤ 1000) :
    0 < myPWM_periodUs frequencyKhz ∧
    (pwmCallSiteFrequencies.all fun fk => fk == 20) = true ∧
    myPWM_periodUs 20 = 50 := by
  refine ⟨myPWM_periodUs_pos frequencyKhz hfpos hfle, by decide, by decide⟩

/-- Witness for C8 at the frequency every call site passes. -/
theorem pwm_division_safe_witness :
    0 < myPWM_periodUs 20 ∧
    (pwmCallSiteFrequencies.all fun fk => fk == 20) = true ∧
    myPWM_periodUs 20 = 50 :=
  pwm_division_safe 20 (by decide) (by decide)

theorem bindTables_cursor (s : SeqState) : (bindTables s).cursor = s.cursor := by
  unfold bindTables
  split <;> rfl

theorem bindTables_mode (s : SeqState) : (bindTables s).pump_mode = s.pump_mode := by
  unfold bindTables
  split <;> rfl

theorem runIteration_index (s : SeqState) (g : Gesture) :
    (runIteration s g).2.index = (applyGesture s g).cursor := by
  simp [runIteration, bindTables_cursor]

theorem runIteration_exec_mode (s : SeqState) (g : Gesture) :
    (runIteration s g).2.mode = (applyGesture s g).pump_mode := by
  simp [runIteration, bindTables_mode]

theorem runIteration_state_mode (s : SeqState) (g : Gesture) :
    (runIteration s g).1.pump_mode = (applyGesture s g).pump_mode := by
  simp [runIteration, bindTables_mode]

theorem runIteration_cursor (s : SeqState) (g : Gesture) :
    (runIteration s g).1.cursor =
      if (applyGesture s g).cursor + 1 > 17 then 0 else (applyGesture s g).cursor + 1 := by
  simp [runIteration, bindTables_cursor]

theorem runIteration_cursor_lt (s : SeqState) (g : Gesture) :
    (runIteration s g).1.cursor < 18 := by
  rw [runIteration_cursor]
  split <;> omega

theorem applyGesture_cursor_lt (s : SeqState) (g : Gesture) (h : s.cursor < 18) :
    (applyGesture s g).cursor < 18 := by
  cases g <;> simp [applyGesture] <;> omega

/-- C5: a long press toggles `pump_mode` between swing (0) and solo (1)
and resets the step index to 0; on the modes the program reaches the
toggle is an involution, so two consecutive long presses restore the
original profile, and alternating long presses walk swing to solo to
swing deterministically. -/
theorem long_press_toggles_and_resets (s : SeqState)
    (h : s.pump_mode = 0 ∨ s.pump_mode = 1) :
    (applyGesture s Gesture.long).pump_mode = toggleMode s.pump_mode ∧
    (applyGesture s Gesture.long).cursor = 0 ∧
    toggleMode s.pump_mode ≠ s.pump_mode ∧
    (runIteration s Gesture.long).2.index = 0 ∧
    (runIteration (runIteration s Gesture.long).1 Gesture.long).2.index = 0 ∧
    (runIteration (runIteration s Gesture.long).1 Gesture.long).1.pump_mode = s.pump_mode ∧
    toggleMode 0 = 1 ∧ toggleMode 1 = 0 := by
  have h1 : (applyGesture s Gesture.long).pump_mode = toggleMode s.pump_mode := by
    simp [applyGesture]
  have h2 : (applyGesture s Gesture.long).cursor = 0 := by
    simp [applyGesture]
  have h4 : (runIteration s Gesture.long).2.index = 0 := by
    rw [runIteration_index, h2]
  have h5 : (runIteration (runIteration s Gesture.long).1 Gesture.long).2.index = 0 := by
    rw [runIteration_index]
    simp [applyGesture]
  have h6 : (runIteration (runIteration s Gesture.long).1 Gesture.long).1.pump_mode
      = s.pump_mode := by
    rw [runIteration_state_mode]
    have : (applyGesture (runIteration s Gesture.long).1 Gesture.long).pump_mode
        = toggleMode (runIteration s Gesture.long).1.pump_mode := by
      simp [applyGesture]
    rw [this, runIteration_state_mode, h1]
    rcases h with h | h <;> simp [toggleMode, h]
  have h3 : toggleMode s.pump_mode ≠ s.pump_mode := by
    rcases h with h | h <;> simp [toggleMode, h]
  exact ⟨h1, h2, h3, h4, h5, h6, by decide, by decide⟩

/-- Witness for C5 at the program-start state (`pump_mode = 1`, solo). -/
theorem long_press_toggles_and_resets_witness :
    (applyGesture initState Gesture.long).pump_mode = toggleMode initState.pump_mode ∧
    (applyGesture initState Gesture.long).cursor = 0 ∧
    toggleMode initState.pump_mode ≠ initState.pump_mode ∧
    (runIteration initState Gesture.long).2.index = 0 ∧
    (runIteration (runIteration initState Gesture.long).1 Gesture.long).2.index = 0 ∧
    (runIteration (runIteration initState Gesture.long).1 Gesture.long).1.pump_mode
      = initState.pump_mode ∧
    toggleMode 0 = 1 ∧ toggleMode 1 = 0 :=
  long_press_toggles_and_resets initState (Or.inr rfl)

theorem runGestures_short_indices (n : ℕ) :
    ∀ s : SeqState, s.cursor < 18 →
      (runGestures s (List.replicate n Gesture.short)).2.map StepExec.index
        = (List.range n).map fun k => (s.cursor + k) % 18 := by
  induction n with
  | zero => intro s _; simp [runGestures]
  | succ m ih =>
      intro s hs
      rw [List.replicate_succ]
      have hshort : applyGesture s Gesture.short = s := rfl
      have hidx : (runIteration s Gesture.short).2.index = s.cursor := by
        rw [runIteration_index, hshort]
      have hcur : (runIteration s Gesture.short).1.cursor = (s.cursor + 1) % 18 := by
        rw [runIteration_cursor, hshort]
        split <;> omega
      have hlt : (runIteration s Gesture.short).1.cursor < 18 :=
        runIteration_cursor_lt s Gesture.short
      simp only [runGestures, List.map_cons, hidx,
        ih (runIteration s Gesture.short).1 hlt, hcur]
      rw [List.range_succ_eq_map, List.map_cons, List.map_map]
      refine congrArg₂ List.cons (by omega) ?_
      refine List.map_congr_left ?_
      intro k _
      simp [Function.comp]
      omega

theorem runGestures_cursor_inv (gs : List Gesture) :
    ∀ s : SeqState, s.cursor < 18 →
      (runGestures s gs).1.cursor < 18 ∧
      ((runGestures s gs).2.all fun e => decide (e.index < 18)) = true := by
  induction gs with
  | nil =>
      intro s hs
      constructor
      · simpa [runGestures] using hs
      · simp [runGestures]
  | cons g rest ih =>
      intro s hs
      have hidx : (runIteration s g).2.index < 18 := by
        rw [runIteration_index]
        exact applyGesture_cursor_lt s g hs
      have hrec := ih (runIteration s g).1 (runIteration_cursor_lt s g)
      constructor
      · simpa [runGestures] using hrec.1
      · simp only [runGestures, List.all_cons, Bool.and_eq_true, decide_eq_true_eq]
        exact ⟨hidx, hrec.2⟩

/-- C6: under repeated short presses from program start the executed step
indices are 0, 1, ..., 17, 0, 1, ... — the cursor strictly increases to
17, wraps to 0, and visits all 18 steps before any index repeats (the
n-th executed step has index n mod 18); and under arbitrary gesture
sequences the cursor and every executed index stay in `[0, 18)`. -/
theorem short_press_cursor_cycle (n : ℕ) (gs : List Gesture) :
    (runGestures initState (List.replicate n Gesture.short)).2.map StepExec.index
      = (List.range n).map (fun k => k % 18) ∧
    (runGestures initState gs).1.cursor < 18 ∧
    ((runGestures initState gs).2.all fun e => decide (e.index < 18)) = true := by
  have h0 : initState.cursor < 18 := by decide
  have h1 := runGestures_short_indices n initState h0
  have h2 := runGestures_cursor_inv gs initState h0
  refine ⟨?_, h2.1, h2.2⟩
  rw [h1]
  refine List.map_congr_left ?_
  intro k _
  show (initState.cursor + k) % 18 = k % 18
  norm_num [initState]

/-- C7: at program start and after any gesture sequence, the two table
pointers alias the tables of one and the same profile — both swing or
both solo, never mixed — and every executed step reads such a consistent
pair. -/
theorem table_pointers_same_profile (gs : List Gesture) :
    tablesConsistent initState.Build_up initState.PWM ∧
    tablesConsistent (runGestures initState gs).1.Build_up (runGestures initState gs).1.PWM ∧
    ((runGestures initState gs).2.all fun e =>
      decide (tablesConsistent e.buildTbl e.dutyTbl)) = true := by
  have hbind : ∀ t : SeqState, tablesConsistent (bindTables t).Build_up (bindTables t).PWM := by
    intro t
    unfold bindTables tablesConsistent
    split
    · exact Or.inl ⟨rfl, rfl⟩
    · exact Or.inr ⟨rfl, rfl⟩
  have hiter1 : ∀ (t : SeqState) (g : Gesture),
      tablesConsistent (runIteration t g).1.Build_up (runIteration t g).1.PWM := by
    intro t g
    simpa [runIteration] using hbind (applyGesture t g)
  have hiter2 : ∀ (t : SeqState) (g : Gesture),
      tablesConsistent (runIteration t g).2.buildTbl (runIteration t g).2.dutyTbl := by
    intro t g
    simpa [runIteration] using hbind (applyGesture t g)
  have key : ∀ (l : List Gesture) (t : SeqState),
      tablesConsistent t.Build_up t.PWM →
      tablesConsistent (runGestures t l).1.Build_up (runGestures t l).1.PWM ∧
      ((runGestures t l).2.all fun e =>
        decide (tablesConsistent e.buildTbl e.dutyTbl)) = true := by
    intro l
    induction l with
    | nil =>
        intro t ht
        constructor
        · simpa [runGestures] using ht
        · simp [runGestures]
    | cons g rest ih =>
        intro t ht
        have hrec := ih (runIteration t g).1 (hiter1 t g)
        constructor
        · simpa [runGestures] using hrec.1
        · simp only [runGestures, List.all_cons, Bool.and_eq_true, decide_eq_true_eq]
          exact ⟨hiter2 t g, hrec.2⟩
  have hinit : tablesConsistent initState.Build_up initState.PWM := Or.inl ⟨rfl, rfl⟩
  exact ⟨hinit, (key gs initState hinit).1, (key gs initState hinit).2⟩

/-- C9 counterexample: the debug branch (lines 120-148) drives the
solenoid enable line alone.  Its very first action sets `SOL_ON_EN` HIGH
(line 122) and the next action is a 100 ms delay (line 124) with
`SOL_ON_PWM` untouched, and line 136 runs a PWM burst on `SOL_ON_PWM`
while `SOL_ON_EN` stays HIGH — so the pair-wise-drive property fails on
this concrete trace. -/
theorem solenoid_unpaired_in_debug :
    solPaired debugTrace = false ∧
    debugTrace[0]? = some (Ev.writeSolOnEn true) ∧
    debugTrace[1]? = some (Ev.delayMs 100) := by
  refine ⟨by decide, by decide, by decide⟩

/-- C9 (amended): throughout the sequencer's step body — for every step's
table entries — the solenoid enable and drive lines are only driven as an
adjacent pair at the same level; the pairing claim fails only in the
debug branch. -/
theorem solenoid_paired_in_step (bu duty : ℤ) :
    solPaired (stepTrace bu duty) = true := by
  rfl

/-- C10 counterexample: when the very first gesture is a long press,
`pump_mode` toggles from 1 (solo) to 0 (swing) before the step executes,
so the first executed step reads the swing tables, not the solo tables as
the claim asserts unconditionally. -/
theorem first_step_after_long_uses_swing :
    ((runGestures initState [Gesture.long]).2.map StepExec.buildTbl)[0]?
      = some Build_up_swing ∧
    Build_up_swing ≠ Build_up_solo := by
  refine ⟨by decide, by decide⟩

/-- C10 (amended): both table pointers are reassigned from the current
`pump_mode` before every executed step, so the tables a step reads are a
function of `pump_mode` alone — whatever the pointers held before the
iteration is never read, in particular the static swing initialisation is
dead.  The first executed step therefore uses the tables selected by
`pump_mode` after the first gesture: solo after a short press
(`pump_mode` stays 1) and swing after a long press (the toggle to 0
precedes the step). -/
theorem step_tables_follow_pump_mode (s : SeqState) (g : Gesture)
    (X Y : List ℤ) (gs : List Gesture) :
    runIteration { s with Build_up := X, PWM := Y } g = runIteration s g ∧
    (runIteration s g).2.buildTbl
      = (if (applyGesture s g).pump_mode = 0 then Build_up_swing else Build_up_solo) ∧
    (runIteration s g).2.dutyTbl
      = (if (applyGesture s g).pump_mode = 0 then PWM_swing else PWM_solo) ∧
    ((runGestures initState (Gesture.short :: gs)).2.map StepExec.buildTbl)[0]?
      = some Build_up_solo ∧
    ((runGestures initState (Gesture.long :: gs)).2.map StepExec.buildTbl)[0]?
      = some Build_up_swing := by
  have hmode : (applyGesture { s with Build_up := X, PWM := Y } g).pump_mode
      = (applyGesture s g).pump_mode := by
    cases g <;> rfl
  have hcur : (applyGesture { s with Build_up := X, PWM := Y } g).cursor
      = (applyGesture s g).cursor := by
    cases g <;> rfl
  refine ⟨?_, ?_, ?_, ?_, ?_⟩
  · cases g with
    | short =>
        by_cases hm : s.pump_mode = 0 <;>
          simp [runIteration, applyGesture, bindTables, hm]
    | long =>
        by_cases hm : toggleMode s.pump_mode = 0 <;>
          simp [runIteration, applyGesture, bindTables, hm]
  · by_cases hm : (applyGesture s g).pump_mode = 0 <;>
      simp [runIteration, bindTables, hm]
  · by_cases hm : (applyGesture s g).pump_mode = 0 <;>
      simp [runIteration, bindTables, hm]
  · simp [runGestures, runIteration, applyGesture, bindTables, initState, toggleMode]
  · simp [runGestures, runIteration, applyGesture, bindTables, initState, toggleMode]

set_option maxRecDepth 100000 in
/-- C1 counterexample: at step 0 of the swing profile (`buildUp[0] = 200`)
with jitter offset +120 (a member of the sweep set of line 184), the code
passes `int(165 * (1 + 0.12)) = 184` milliseconds to `myPWM` — the cast
truncates — while the claimed `round(165 * 1.12)` is 185. -/
theorem jitter_round_counterexample :
    Build_up_swing[0]? = some 200 ∧
    (120 : ℤ) ∈ jitterValues ∧
    mainBurstDuration 200 120 = 184 ∧
    specAdjustedBuildUp 200 120 = 185 ∧
    mainBurstDuration 200 120 ≠ specAdjustedBuildUp 200 120 := by
  have h1 : mainBurstDuration 200 120 = 184 := by decide
  have h2 : specAdjustedBuildUp 200 120 = 185 := by
    unfold specAdjustedBuildUp
    rw [round_eq]
    norm_num
  refine ⟨by decide, by decide, h1, h2, ?_⟩
  rw [h1, h2]
  decide

set_option maxRecDepth 1000000 in
set_option maxHeartbeats 4000000 in
/-- C1 (amended): the main-burst duration the sweep passes to the PWM
engine is the binary64 value `(buildUp[i]-35)*(1+j/1000.0)` truncated
toward zero by the `int` cast — for every build-up entry of either
profile table and every jitter offset in the sweep set this equals
`floor((buildUp[i]-35)*(1000+j)/1000)`, not the rounded value — and with
`buildUp[0] = 200` the three offsets -120, 0, 120 yield 145, 165 and 184
milliseconds. -/
theorem jitter_duration_truncates (bu duty j : ℤ) :
    (sweepIterTrace bu duty j)[1]?
      = some (Ev.pwmBurst Pin.MOTOR_PWM (mainBurstDuration bu j) (duty * 255 / 100) 20) ∧
    ((Build_up_swing ++ Build_up_solo).all fun b =>
      jitterValues.all fun k =>
        mainBurstDuration b k == ((b - 35) * (1000 + k)).fdiv 1000) = true ∧
    mainBurstDuration 200 (-120) = 145 ∧
    mainBurstDuration 200 0 = 165 ∧
    mainBurstDuration 200 120 = 184 := by
  refine ⟨rfl, by decide, by decide, by decide, by decide⟩
